import Mathlib

/-!
The twin-process program: a monitor process and a worker process that restart each other.

A shallow embedding of `main.go`: the PID registry (`readPIDsFromFile`,
`addPIDToFile`), the liveness check (`isProcessAlive`), the shutdown sentinel
(`isSignalFileExist`, `createSignalFile`), the two supervisor loops (`monitor`,
`worker`) and the three commands.

Conventions of the embedding.

* A Go `string` is a `List Char`; only the bytes `'\n'`, `'+'`, `'-'` and
  `'0'` .. `'9'` are ever distinguished by the program.
* A Go `int` is an `Int` in the range `minInt .. maxInt` (64-bit targets).
* The registry file is a value of `PidFile`; operating-system calls whose result
  the program branches on (`os.Stat`, `os.FindProcess`, `Process.Signal`,
  `cmd.Start`, `os.Create`, and `os.OpenFile` / `WriteString` on the registry
  file) are fields of `Env` and `WriteEnv`, one `Env` per poll iteration and
  one `WriteEnv` per call of `addPIDToFile`.
* `os.Exit` and a run-time panic are values of `Status`; every operating-system
  call made by the supervisor is recorded in a trace of `Event`s.
* The heartbeat goroutine `writePIDPeriodically` runs concurrently with the
  loop and is not part of the sequential model; the log lines printed inside
  the registry functions are not recorded.
-/

namespace TwinProcess

/-- Equality of two `Except` results is decidable when it is for errors and values. -/
instance instDecidableEqExcept {ε α : Type} [DecidableEq ε] [DecidableEq α] :
    DecidableEq (Except ε α) := fun a b =>
  match a, b with
  | .ok x, .ok y =>
    if h : x = y then isTrue (by rw [h]) else isFalse (fun h2 => h (Except.ok.inj h2))
  | .error x, .error y =>
    if h : x = y then isTrue (by rw [h]) else isFalse (fun h2 => h (Except.error.inj h2))
  | .ok _, .error _ => isFalse (fun h => Except.noConfusion h)
  | .error _, .ok _ => isFalse (fun h => Except.noConfusion h)

/-! ## The parts of `strconv` the program calls -/

/-- Width of the Go `int` type (`strconv.IntSize`) on 64-bit targets. -/
def intSize : Nat := 64

/-- Largest value of the Go `int` type. -/
def maxInt : Int := 2 ^ (intSize - 1) - 1

/-- Smallest value of the Go `int` type. -/
def minInt : Int := -(2 ^ (intSize - 1))

/-- Largest value of `uint64`, the accumulator type of `strconv.ParseUint`. -/
def maxUint64 : Nat := 2 ^ 64 - 1

/-- The two kinds of `*strconv.NumError`: `ErrSyntax` and `ErrRange`. -/
inductive NumError where
  | syntaxErr
  | rangeErr
  deriving DecidableEq, Repr

/-- A byte in `'0'` .. `'9'`. -/
def isDigit (c : Char) : Bool := decide (48 ≤ c.toNat) && decide (c.toNat ≤ 57)

/-- Value `c - '0'` of a digit byte. -/
def digitVal (c : Char) : Nat := c.toNat - 48

/-- The digit loop of `strconv.ParseUint(s, 10, 64)`: a byte that is not a decimal
digit is a syntax error, and the first step that would leave `uint64` is a range
error (returned at once, whatever follows). -/
def parseUintLoop : List Char → Nat → Except NumError Nat
  | [], n => .ok n
  | c :: cs, n =>
    if isDigit c = false then .error .syntaxErr
    else if maxUint64 / 10 + 1 ≤ n then .error .rangeErr
    else if maxUint64 < n * 10 + digitVal c then .error .rangeErr
    else parseUintLoop cs (n * 10 + digitVal c)

/-- Go `strconv.ParseUint(s, 10, 64)`. -/
def ParseUint (s : List Char) : Except NumError Nat :=
  match s with
  | [] => .error .syntaxErr
  | _ :: _ => parseUintLoop s 0

/-- Go `strconv.ParseInt(s, 10, 0)`: an optional sign, then `ParseUint`, then the
range check against `1 << (intSize - 1)`. -/
def ParseInt (s : List Char) : Except NumError Int :=
  match s with
  | [] => .error .syntaxErr
  | c :: rest =>
    let neg : Bool := decide (c = '-')
    let body : List Char := if c = '+' ∨ c = '-' then rest else s
    match ParseUint body with
    | .error e => .error e
    | .ok un =>
      if neg = false ∧ 2 ^ (intSize - 1) ≤ un then .error .rangeErr
      else if neg = true ∧ 2 ^ (intSize - 1) < un then .error .rangeErr
      else .ok (if neg then -(un : Int) else (un : Int))

/-- The digit loop of the fast path of `strconv.Atoi`: no range check, the input is
short enough for the value to fit. -/
def atoiFastLoop : List Char → Nat → Except NumError Nat
  | [], n => .ok n
  | c :: cs, n =>
    if isDigit c = false then .error .syntaxErr
    else atoiFastLoop cs (n * 10 + digitVal c)

/-- Go `strconv.Atoi`: a fast path for inputs of 1 to 18 bytes (64-bit targets), and
`ParseInt(s, 10, 0)` for the others. -/
def Atoi (s : List Char) : Except NumError Int :=
  if 0 < s.length ∧ s.length < 19 then
    match s with
    | [] => .error .syntaxErr
    | c :: rest =>
      match (if c = '-' ∨ c = '+' then rest else s) with
      | [] => .error .syntaxErr
      | d :: ds =>
        match atoiFastLoop (d :: ds) 0 with
        | .error e => .error e
        | .ok n => .ok (if c = '-' then -(n : Int) else (n : Int))
  else ParseInt s

/-- The byte `'0' + d`. -/
def digitChar (d : Nat) : Char := Char.ofNat (48 + d)

/-- The digit loop of `strconv.formatBits` in base 10: digits are produced from the
least significant one, in front of `acc`. The first argument bounds the number of
loop steps (the buffer of the Go function has 65 bytes). -/
def formatBits : Nat → Nat → List Char → List Char
  | 0, u, acc => digitChar (u % 10) :: acc
  | fuel + 1, u, acc =>
    if 10 ≤ u then formatBits fuel (u / 10) (digitChar (u % 10) :: acc)
    else digitChar u :: acc

/-- Go `strconv.Itoa`. -/
def Itoa (i : Int) : List Char :=
  if i < 0 then '-' :: formatBits 64 i.natAbs [] else formatBits 64 i.natAbs []

/-! ## The PID registry -/

/-- What `ioutil.ReadFile(pidFile)` can find at the registry path: no file, a file with
some content, or something that cannot be read (any error other than not-exist). -/
inductive PidFile where
  | absent
  | present (data : List Char)
  | unreadable
  deriving DecidableEq, Repr

/-- The bytes stored in the registry file (none when there is no readable file). -/
def PidFile.content : PidFile → List Char
  | .present data => data
  | _ => []

/-- The errors of `readPIDsFromFile`: the read error passed through, or the
`strconv.Atoi` error of the first line that does not parse. -/
inductive LoadError where
  | readFailed
  | parse (e : NumError)
  deriving DecidableEq, Repr

/-- Go `strings.Split(s, sep)` for the one-byte separator `sep`. -/
def Split (sep : Char) : List Char → List (List Char)
  | [] => [[]]
  | c :: cs =>
    if c = sep then [] :: Split sep cs
    else
      match Split sep cs with
      | [] => [[c]]
      | l :: ls => (c :: l) :: ls

/-- The loop of `readPIDsFromFile` over the lines: an empty line is skipped, the first
line `strconv.Atoi` rejects ends the loop with its error. -/
def parseLines : List (List Char) → Except LoadError (List Int)
  | [] => .ok []
  | line :: lines =>
    if line = [] then parseLines lines
    else
      match Atoi line with
      | .error e => .error (.parse e)
      | .ok pid =>
        match parseLines lines with
        | .error e => .error e
        | .ok pids => .ok (pid :: pids)

/-- The function `readPIDsFromFile` of `main.go`. -/
def readPIDsFromFile : PidFile → Except LoadError (List Int)
  | .absent => .ok []
  | .unreadable => .error .readFailed
  | .present data => parseLines (Split '\n' data)

/-- The answers of the operating system to the two calls with which `addPIDToFile`
writes. `openOk` tells whether `os.OpenFile(pidFile, O_APPEND|O_CREATE|O_WRONLY, 0644)`
returns a file (it fails, for one, when the directory is missing or the file is not
writable). `shortWrite` is `none` when `f.WriteString` writes the whole text, and
`some n` when it returns an error after writing only the first `n` bytes. -/
structure WriteEnv where
  openOk : Bool
  shortWrite : Option Nat
  deriving DecidableEq, Repr

/-- Both write calls succeed. -/
def WriteEnv.healthy : WriteEnv := ⟨true, none⟩

/-- The bytes of `text` that `f.WriteString(text)` puts into the file. -/
def WriteEnv.bytesWritten (w : WriteEnv) (text : List Char) : List Char :=
  match w.shortWrite with
  | none => text
  | some n => text.take n

/-- The function `addPIDToFile` of `main.go`: nothing is written when the load fails,
when the identifier is already listed, or when the file cannot be opened; an opened
file exists from then on and receives the bytes the write call gets through. -/
def addPIDToFile (w : WriteEnv) (f : PidFile) (pid : Int) : PidFile :=
  match readPIDsFromFile f with
  | .error _ => f
  | .ok pids =>
    if pid ∈ pids then f
    else if w.openOk = false then f
    else .present (f.content ++ w.bytesWritten (Itoa pid ++ ['\n']))

/-! ## Specification vocabulary for the registry -/

/-- The number a run of decimal digits denotes when read after the prefix value `n`. -/
def digitsValue : List Char → Nat → Nat
  | [], n => n
  | c :: cs, n => digitsValue cs (n * 10 + digitVal c)

/-- The digits of a line, behind its optional sign. -/
def unsignedPart : List Char → List Char
  | [] => []
  | c :: rest => if c = '+' ∨ c = '-' then rest else c :: rest

/-- A numeric line: an optional sign `+` or `-`, then one decimal digit or more, and
nothing else. -/
def isNumeric (line : List Char) : Bool :=
  decide (unsignedPart line ≠ []) && (unsignedPart line).all isDigit

/-- The integer a numeric line denotes. -/
def intValue (line : List Char) : Int :=
  if line.head? = some '-' then -((digitsValue (unsignedPart line) 0 : Nat) : Int)
  else ((digitsValue (unsignedPart line) 0 : Nat) : Int)

/-- A numeric line whose value is a Go `int`. -/
def isIntText (line : List Char) : Bool :=
  isNumeric line && decide (minInt ≤ intValue line) && decide (intValue line ≤ maxInt)

/-- The registry file is absent or unreadable, is empty, or ends with a newline: there
is no unfinished last line for an append to run into. -/
def newlineTerminated (f : PidFile) : Prop :=
  f.content = [] ∨ f.content.getLast? = some '\n'

/-- The distinct elements of a sequence, each at the place of its first occurrence. -/
def firstOccurrences : List Int → List Int
  | [] => []
  | p :: ps => p :: (firstOccurrences ps).filter (fun q => decide (q ≠ p))

/-! ## The operating system as one process sees it -/

/-- The value of `runtime.GOOS`: Windows, or a Unix system. -/
inductive GOOS where
  | windows
  | linux
  deriving DecidableEq, Repr

/-- The result of `os.Stat(signalFile)`: no error, a not-exist error, or another error. -/
inductive StatResult where
  | found
  | notExist
  | otherError
  deriving DecidableEq, Repr

/-- The two roles; each is started by the command of its name. -/
inductive Role where
  | monitor
  | worker
  deriving DecidableEq, Repr

/-- The signals the program sends: `syscall.Signal(0)` and `syscall.SIGTERM`. -/
inductive Sig where
  | probe
  | term
  deriving DecidableEq, Repr

/-- The lines the modelled functions print. -/
inductive Msg where
  | invalidPartnerPid
  | creatingStopSignalFile
  | failedToCreateSignalFile
  | signalFileExist
  | workerNotAlive
  | monitorNotAlive
  | monitoring
  | doingSomeWork
  | errorReadingPidFile
  | errorFindingProcess
  | errorSendingSignal
  deriving DecidableEq, Repr

/-- The observable actions of a process, in the order they are made. `start role arg`
is `exec.Command(os.Args[0], "start-<role>", arg)` followed by `cmd.Start()`. -/
inductive Event where
  | print (m : Msg)
  | stat
  | findProcess (pid : Int)
  | signal (pid : Int) (sig : Sig)
  | start (role : Role) (partnerArg : List Char)
  | create
  | sleep
  deriving DecidableEq, Repr

/-- The answers of the operating system during one poll iteration (or one command).
`running` is the process table itself; the program never reads it, it only sees the
results of the calls below. `start` is the result of `cmd.Start()`: the identifier in
`cmd.Process.Pid` on success, `none` when it returns an error and leaves `cmd.Process`
nil. `pidWrite` answers the write calls of `addPIDToFile`. -/
structure Env where
  goos : GOOS
  getpid : Int
  running : Int → Bool
  stat : StatResult
  findProcess : Int → Bool
  signal : Int → Sig → Bool
  start : Option Int
  create : Bool
  pidWrite : WriteEnv

/-- Go `os.FindProcess` as package `os` documents it: on Unix it always succeeds,
whether or not the process exists; on Windows it opens the process and fails when there
is none. -/
def osFindProcess (goos : GOOS) (running : Int → Bool) (pid : Int) : Bool :=
  match goos with
  | .linux => true
  | .windows => running pid

/-- Go `Process.Signal` as package `os` documents it: on Unix the signal reaches a
running process and fails for a finished one; on Windows only `os.Kill` is implemented,
every other signal returns an error. -/
def osSignal (goos : GOOS) (running : Int → Bool) (pid : Int) (_sig : Sig) : Bool :=
  match goos with
  | .linux => running pid
  | .windows => false

/-- An environment whose process calls answer as package `os` documents, and in which
the registry file can be opened and written. -/
def hostEnv (goos : GOOS) (running : Int → Bool) (getpid : Int) (stat : StatResult)
    (start : Option Int) (create : Bool) : Env :=
  Env.mk goos getpid running stat (osFindProcess goos running) (osSignal goos running) start
    create WriteEnv.healthy

/-- The environment `env` with the answers `w` to the write calls on the registry file. -/
def Env.withWrite (env : Env) (w : WriteEnv) : Env :=
  Env.mk env.goos env.getpid env.running env.stat env.findProcess env.signal env.start
    env.create w

/-- How far a process got: still in its loop with a stored partner identifier, returned
from the command, ended by `os.Exit(code)`, or ended by a run-time panic. -/
inductive Status where
  | running (partnerPID : Int)
  | returned
  | exited (code : Nat)
  | panicked
  deriving DecidableEq, Repr

/-- The outcome of running a piece of the program: its status, the registry file it
leaves, and the actions it made. -/
structure Run where
  status : Status
  pidFile : PidFile
  trace : List Event
  deriving DecidableEq, Repr

/-- The outcome of `startMonitor` / `startWorker`: the child identifier read from
`cmd.Process.Pid` (`none` when `cmd.Process` is nil, where that read panics), the
registry file, and the actions made. -/
structure Started where
  pid : Option Int
  pidFile : PidFile
  trace : List Event
  deriving DecidableEq, Repr

/-! ## Liveness check and sentinel -/

/-- The function `isProcessAlive` of `main.go`, with the calls it makes. -/
def isProcessAlive (env : Env) (pid : Int) : Bool × List Event :=
  if env.findProcess pid = false then (false, [.findProcess pid])
  else if env.goos = .windows then (env.signal pid .probe, [.findProcess pid, .signal pid .probe])
  else (true, [.findProcess pid])

/-- The function `isSignalFileExist` of `main.go`: `!os.IsNotExist(err)`. -/
def isSignalFileExist (env : Env) : Bool :=
  match env.stat with
  | .notExist => false
  | _ => true

/-- The function `createSignalFile` of `main.go`. -/
def createSignalFile (env : Env) (file : PidFile) : Run :=
  if env.create then ⟨.returned, file, [.create]⟩
  else ⟨.exited 1, file, [.create, .print .failedToCreateSignalFile]⟩

/-! ## Spawning the counterpart -/

/-- The function `startMonitor` of `main.go`. -/
def startMonitor (env : Env) (file : PidFile) : Started :=
  match env.start with
  | none => ⟨none, file, [.start .monitor (Itoa env.getpid)]⟩
  | some pid =>
    ⟨some pid, addPIDToFile env.pidWrite file pid, [.start .monitor (Itoa env.getpid)]⟩

/-- The function `startWorker` of `main.go`. -/
def startWorker (env : Env) (file : PidFile) : Started :=
  match env.start with
  | none => ⟨none, file, [.start .worker (Itoa env.getpid)]⟩
  | some pid =>
    ⟨some pid, addPIDToFile env.pidWrite file pid, [.start .worker (Itoa env.getpid)]⟩

/-- The other role. -/
def Role.opposite : Role → Role
  | .monitor => .worker
  | .worker => .monitor

/-- The spawning function a role calls: `monitor` calls `startWorker`, `worker` calls
`startMonitor`. -/
def startCounterpart : Role → Env → PidFile → Started
  | .monitor => startWorker
  | .worker => startMonitor

/-- The line a role prints before it respawns its partner. -/
def notAliveMsg : Role → Msg
  | .monitor => .workerNotAlive
  | .worker => .monitorNotAlive

/-- The line a role prints for its unit of work. -/
def workMsg : Role → Msg
  | .monitor => .monitoring
  | .worker => .doingSomeWork

/-! ## The supervisor -/

/-- One pass through the body of the `for` loop of `monitor` (role `monitor`) or of
`worker` (role `worker`). -/
def pollIteration (role : Role) (env : Env) (file : PidFile) (partnerPID : Int) : Run :=
  if isSignalFileExist env then
    ⟨.exited 0, file, [.stat, .print .signalFileExist]⟩
  else if (isProcessAlive env partnerPID).1 = false then
    match (startCounterpart role env file).pid with
    | none =>
      ⟨.panicked, (startCounterpart role env file).pidFile,
        .stat :: (isProcessAlive env partnerPID).2 ++ .print (notAliveMsg role) ::
          (startCounterpart role env file).trace⟩
    | some pid =>
      ⟨.running pid, (startCounterpart role env file).pidFile,
        .stat :: (isProcessAlive env partnerPID).2 ++ .print (notAliveMsg role) ::
          (startCounterpart role env file).trace ++ [.print (workMsg role), .sleep]⟩
  else
    ⟨.running partnerPID, file,
      .stat :: (isProcessAlive env partnerPID).2 ++ [.print (workMsg role), .sleep]⟩

/-- The `for` loop of `monitor` / `worker`, run for as many iterations as there are
environments; it stops before that only when an iteration exits or panics. -/
def superviseLoop (role : Role) : List Env → PidFile → Int → Run
  | [], file, partnerPID => ⟨.running partnerPID, file, []⟩
  | env :: envs, file, partnerPID =>
    match (pollIteration role env file partnerPID).status with
    | .running p =>
      ⟨(superviseLoop role envs (pollIteration role env file partnerPID).pidFile p).status,
        (superviseLoop role envs (pollIteration role env file partnerPID).pidFile p).pidFile,
        (pollIteration role env file partnerPID).trace ++
          (superviseLoop role envs (pollIteration role env file partnerPID).pidFile p).trace⟩
    | _ => pollIteration role env file partnerPID

/-- The body shared by `monitor` and `worker`: the initial spawn when the partner
identifier is `0`, then the loop. `env0` answers the calls made before the loop. -/
def supervise (role : Role) (env0 : Env) (envs : List Env) (file : PidFile)
    (partnerPID : Int) : Run :=
  if partnerPID = 0 then
    match (startCounterpart role env0 file).pid with
    | none =>
      ⟨.panicked, (startCounterpart role env0 file).pidFile,
        (startCounterpart role env0 file).trace⟩
    | some pid =>
      ⟨(superviseLoop role envs (startCounterpart role env0 file).pidFile pid).status,
        (superviseLoop role envs (startCounterpart role env0 file).pidFile pid).pidFile,
        (startCounterpart role env0 file).trace ++
          (superviseLoop role envs (startCounterpart role env0 file).pidFile pid).trace⟩
  else superviseLoop role envs file partnerPID

/-- The function `monitor` of `main.go`. -/
def monitor (env0 : Env) (envs : List Env) (file : PidFile) (partnerPID : Int) : Run :=
  supervise .monitor env0 envs file partnerPID

/-- The function `worker` of `main.go`. -/
def worker (env0 : Env) (envs : List Env) (file : PidFile) (partnerPID : Int) : Run :=
  supervise .worker env0 envs file partnerPID

/-! ## The commands -/

/-- The `Run` function shared by `startMonitorCmd` and `startWorkerCmd`; `args` holds
at most one argument (`cobra.MaximumNArgs(1)`). -/
def startCmd (role : Role) (args : List (List Char)) (env0 : Env) (envs : List Env)
    (file : PidFile) : Run :=
  match args with
  | [] => supervise role env0 envs file 0
  | arg :: _ =>
    match Atoi arg with
    | .error _ => ⟨.exited 1, file, [.print .invalidPartnerPid]⟩
    | .ok partnerPID => supervise role env0 envs file partnerPID

/-- The `Run` function of `startMonitorCmd`. -/
def startMonitorCmd (args : List (List Char)) (env0 : Env) (envs : List Env)
    (file : PidFile) : Run :=
  startCmd .monitor args env0 envs file

/-- The `Run` function of `startWorkerCmd`. -/
def startWorkerCmd (args : List (List Char)) (env0 : Env) (envs : List Env)
    (file : PidFile) : Run :=
  startCmd .worker args env0 envs file

/-- The `Run` function of `stopCmd`: it prints a line and calls `createSignalFile`. -/
def stopCmd (env : Env) (file : PidFile) : Run :=
  ⟨(createSignalFile env file).status, (createSignalFile env file).pidFile,
    .print .creatingStopSignalFile :: (createSignalFile env file).trace⟩

/-- The body of the `for` loop of `stopAllProcesses` for one identifier. -/
def signalOne (env : Env) (pid : Int) : List Event :=
  if env.findProcess pid = false then [.findProcess pid, .print .errorFindingProcess]
  else if env.signal pid .term = false then
    [.findProcess pid, .signal pid .term, .print .errorSendingSignal]
  else [.findProcess pid, .signal pid .term]

/-- The `for` loop of `stopAllProcesses`. -/
def signalAll (env : Env) : List Int → List Event
  | [] => []
  | pid :: pids => signalOne env pid ++ signalAll env pids

/-- The function `stopAllProcesses` of `main.go`; nothing in the program calls it. -/
def stopAllProcesses (env : Env) (file : PidFile) : Run :=
  match readPIDsFromFile file with
  | .error _ => ⟨.returned, file, [.print .errorReadingPidFile]⟩
  | .ok pids => ⟨.returned, file, signalAll env pids⟩

/-- The events that start a counterpart process. -/
def Event.isStart : Event → Bool
  | .start _ _ => true
  | _ => false

/-- The events that send a signal to a process. -/
def Event.isSignal : Event → Bool
  | .signal _ _ => true
  | _ => false

/-- The events of a liveness check: a process lookup or a signal. -/
def Event.isProbe : Event → Bool
  | .findProcess _ => true
  | .signal _ _ => true
  | _ => false

/-! ## Sample hosts and sequences of calls -/

/-- A Unix host on which only process `10`, the supervisor itself, is running; the
sentinel is absent and a spawn yields child `77`. -/
def unixHost : Env := hostEnv .linux (fun pid => decide (pid = 10)) 10 .notExist (some 77) true

/-- A Windows host on which only process `10`, the supervisor itself, is running; the
sentinel is absent and a spawn yields child `77`. -/
def windowsHost : Env :=
  hostEnv .windows (fun pid => decide (pid = 10)) 10 .notExist (some 77) true

/-- The Windows host when the executable cannot be started: `cmd.Start()` fails. -/
def windowsHostNoExec : Env :=
  hostEnv .windows (fun pid => decide (pid = 10)) 10 .notExist none true

/-- The Unix host once the sentinel file has been created. -/
def unixHostStopped : Env := hostEnv .linux (fun pid => decide (pid = 10)) 10 .found (some 77) true

/-- The Unix host when `os.Stat` on the sentinel path fails with an error other than
not-exist (a permission error, say): no sentinel file was found. -/
def unixHostStatError : Env :=
  hostEnv .linux (fun pid => decide (pid = 10)) 10 .otherError (some 77) true

/-- The Windows host when the registry file cannot be opened for writing (the directory
`C:\Temp` is missing, say). -/
def windowsHostNoOpen : Env := windowsHost.withWrite ⟨false, none⟩

/-- The registry after the calls `append(p)` of a list, each with the answers of the
operating system to its write calls, made in order. -/
def appendAll (calls : List (WriteEnv × Int)) (f : PidFile) : PidFile :=
  calls.foldl (fun file call => addPIDToFile call.1 file call.2) f

/-! ## Lemmas on `strconv` -/

theorem isDigit_digitChar (d : Nat) (h : d < 10) : isDigit (digitChar d) = true := by
  interval_cases d <;> decide

theorem digitVal_digitChar (d : Nat) (h : d < 10) : digitVal (digitChar d) = d := by
  interval_cases d <;> decide

theorem isDigit_ne_sign (c : Char) (h : isDigit c = true) : ¬ (c = '+' ∨ c = '-') := by
  rintro (rfl | rfl) <;> exact absurd h (by decide)

theorem isDigit_ne_newline (c : Char) (h : isDigit c = true) : c ≠ '\n' := by
  rintro rfl
  exact absurd h (by decide)

theorem le_digitsValue (cs : List Char) (n : Nat) : n ≤ digitsValue cs n := by
  induction cs generalizing n with
  | nil => simp [digitsValue]
  | cons c cs ih =>
    have := ih (n * 10 + digitVal c)
    simp only [digitsValue]
    omega

theorem formatBits_digits (fuel u : Nat) (acc : List Char)
    (hacc : ∀ c ∈ acc, isDigit c = true) : ∀ c ∈ formatBits fuel u acc, isDigit c = true := by
  induction fuel generalizing u acc with
  | zero =>
    intro c hc
    simp only [formatBits, List.mem_cons] at hc
    rcases hc with rfl | hc
    · exact isDigit_digitChar _ (Nat.mod_lt _ (by norm_num))
    · exact hacc c hc
  | succ fuel ih =>
    intro c hc
    simp only [formatBits] at hc
    split at hc
    · refine ih (u / 10) _ ?_ c hc
      intro d hd
      simp only [List.mem_cons] at hd
      rcases hd with rfl | hd
      · exact isDigit_digitChar _ (Nat.mod_lt _ (by norm_num))
      · exact hacc d hd
    · simp only [List.mem_cons] at hc
      rcases hc with rfl | hc
      · exact isDigit_digitChar _ (by omega)
      · exact hacc c hc

theorem formatBits_ne_nil (fuel u : Nat) (acc : List Char) : formatBits fuel u acc ≠ [] := by
  induction fuel generalizing u acc with
  | zero => simp [formatBits]
  | succ fuel ih =>
    simp only [formatBits]
    split
    · exact ih _ _
    · simp

theorem formatBits_value (fuel u : Nat) (acc : List Char) (hu : u < 10 ^ (fuel + 1)) :
    digitsValue (formatBits fuel u acc) 0 = digitsValue acc u := by
  induction fuel generalizing u acc with
  | zero =>
    have h10 : u < 10 := by simpa using hu
    simp [formatBits, digitsValue, digitVal_digitChar u h10, Nat.mod_eq_of_lt h10]
  | succ fuel ih =>
    simp only [formatBits]
    split
    · have hq : u / 10 < 10 ^ (fuel + 1) := by
        rw [Nat.div_lt_iff_lt_mul (by norm_num)]
        calc u < 10 ^ (fuel + 1 + 1) := hu
          _ = 10 ^ (fuel + 1) * 10 := by ring
      rw [ih (u / 10) _ hq]
      simp only [digitsValue, digitVal_digitChar (u % 10) (Nat.mod_lt _ (by norm_num))]
      congr 1
      omega
    · simp [digitsValue, digitVal_digitChar u (by omega)]

theorem parseUintLoop_ok (cs : List Char) (n : Nat) (hd : ∀ c ∈ cs, isDigit c = true)
    (hv : digitsValue cs n ≤ maxUint64) : parseUintLoop cs n = .ok (digitsValue cs n) := by
  induction cs generalizing n with
  | nil => simp [parseUintLoop, digitsValue]
  | cons c cs ih =>
    have hc : isDigit c = true := hd c (List.mem_cons_self _ _)
    have hle := le_digitsValue cs (n * 10 + digitVal c)
    simp only [digitsValue] at hv ⊢
    have h1 : ¬ (maxUint64 / 10 + 1 ≤ n) := by
      intro h
      have : maxUint64 < n * 10 := by
        have := Nat.lt_of_div_lt_div (show maxUint64 / 10 < (n * 10) / 10 by
          rw [Nat.mul_div_cancel _ (by norm_num)]; omega)
        exact this
      omega
    have h2 : ¬ (maxUint64 < n * 10 + digitVal c) := by omega
    simp only [parseUintLoop, hc, h1, h2, if_false, Bool.true_eq_false]
    exact ih _ (fun d hd2 => hd d (List.mem_cons_of_mem _ hd2)) hv

theorem parseUintLoop_inv (cs : List Char) (n m : Nat) (h : parseUintLoop cs n = .ok m) :
    (∀ c ∈ cs, isDigit c = true) ∧ m = digitsValue cs n ∧ (n ≤ maxUint64 → m ≤ maxUint64) := by
  induction cs generalizing n with
  | nil =>
    simp only [parseUintLoop, Except.ok.injEq] at h
    subst h
    simp [digitsValue]
  | cons c cs ih =>
    simp only [parseUintLoop] at h
    split at h
    · exact absurd h (by simp)
    · split at h
      · exact absurd h (by simp)
      · split at h
        · exact absurd h (by simp)
        · rename_i hc _ h2
          obtain ⟨ha, hb, hc2⟩ := ih _ h
          refine ⟨?_, ?_, ?_⟩
          · intro d hd
            simp only [List.mem_cons] at hd
            rcases hd with rfl | hd
            · simpa using hc
            · exact ha d hd
          · simpa [digitsValue] using hb
          · intro _
            exact hc2 (by omega)

theorem ParseUint_ok_iff (body : List Char) (un : Nat) :
    ParseUint body = .ok un ↔
      body ≠ [] ∧ (∀ c ∈ body, isDigit c = true) ∧ digitsValue body 0 ≤ maxUint64 ∧
        un = digitsValue body 0 := by
  cases body with
  | nil => simp [ParseUint]
  | cons c cs =>
    simp only [ParseUint, ne_eq, reduceCtorEq, not_false_eq_true, true_and]
    constructor
    · intro h
      obtain ⟨h1, h2, h3⟩ := parseUintLoop_inv _ _ _ h
      exact ⟨h1, h2 ▸ h3 (Nat.zero_le _), h2⟩
    · rintro ⟨h1, h2, h3⟩
      rw [h3]
      exact parseUintLoop_ok _ _ h1 h2

theorem ParseInt_cons (c : Char) (rest : List Char) :
    ParseInt (c :: rest) =
      match ParseUint (unsignedPart (c :: rest)) with
      | .error e => .error e
      | .ok un =>
        if decide (c = '-') = false ∧ 2 ^ (intSize - 1) ≤ un then .error .rangeErr
        else if decide (c = '-') = true ∧ 2 ^ (intSize - 1) < un then .error .rangeErr
        else .ok (if decide (c = '-') then -(un : Int) else (un : Int)) := rfl

theorem intValue_cons (c : Char) (rest : List Char) :
    intValue (c :: rest) =
      if c = '-' then -((digitsValue (unsignedPart (c :: rest)) 0 : Nat) : Int)
      else ((digitsValue (unsignedPart (c :: rest)) 0 : Nat) : Int) := by
  simp [intValue]

theorem minInt_eq : minInt = -9223372036854775808 := by norm_num [minInt, intSize]

theorem maxInt_eq : maxInt = 9223372036854775807 := by norm_num [maxInt, intSize]

theorem cutoff_eq : (2 : Nat) ^ (intSize - 1) = 9223372036854775808 := by norm_num [intSize]

theorem maxUint64_eq : maxUint64 = 18446744073709551615 := by norm_num [maxUint64]

theorem isIntText_iff (s : List Char) :
    isIntText s = true ↔
      unsignedPart s ≠ [] ∧ (∀ c ∈ unsignedPart s, isDigit c = true) ∧
        minInt ≤ intValue s ∧ intValue s ≤ maxInt := by
  simp [isIntText, isNumeric, and_assoc]

theorem ParseInt_cons_ok (c : Char) (rest : List Char) (un : Nat)
    (hp : ParseUint (unsignedPart (c :: rest)) = .ok un) :
    ParseInt (c :: rest) =
      if c = '-' then
        (if 9223372036854775808 < un then .error .rangeErr else .ok (-(un : Int)))
      else (if 9223372036854775808 ≤ un then .error .rangeErr else .ok (un : Int)) := by
  rw [ParseInt_cons, hp]
  by_cases hneg : c = '-' <;> simp [hneg, cutoff_eq]

theorem ParseInt_cons_error (c : Char) (rest : List Char) (e : NumError)
    (hp : ParseUint (unsignedPart (c :: rest)) = .error e) :
    ParseInt (c :: rest) = .error e := by
  rw [ParseInt_cons, hp]

theorem digitVal_le (c : Char) (h : isDigit c = true) : digitVal c ≤ 9 := by
  simp only [isDigit, Bool.and_eq_true, decide_eq_true_eq] at h
  simp only [digitVal]
  omega

theorem atoiFastLoop_eq (cs : List Char) (n : Nat)
    (h : (n + 1) * 10 ^ cs.length ≤ 2 ^ 64) : parseUintLoop cs n = atoiFastLoop cs n := by
  induction cs generalizing n with
  | nil => rfl
  | cons c cs ih =>
    simp only [parseUintLoop, atoiFastLoop]
    by_cases hc : isDigit c = false
    · rw [if_pos hc, if_pos hc]
    · rw [if_neg hc, if_neg hc]
      have hd := digitVal_le c (by simpa using hc)
      have hpow : 1 ≤ 10 ^ cs.length := Nat.one_le_pow _ _ (by norm_num)
      rw [List.length_cons, pow_succ] at h
      have h10 : (n + 1) * 10 ≤ 2 ^ 64 := by
        calc (n + 1) * 10 ≤ (n + 1) * (10 ^ cs.length * 10) :=
              Nat.mul_le_mul_left _ (by omega)
          _ ≤ 2 ^ 64 := h
      have hnext : (n * 10 + digitVal c + 1) * 10 ^ cs.length ≤ 2 ^ 64 := by
        calc (n * 10 + digitVal c + 1) * 10 ^ cs.length
            ≤ ((n + 1) * 10) * 10 ^ cs.length := Nat.mul_le_mul_right _ (by omega)
          _ = (n + 1) * (10 ^ cs.length * 10) := by ring
          _ ≤ 2 ^ 64 := h
      rw [maxUint64_eq]
      norm_num at h10
      rw [if_neg (by omega), if_neg (by omega)]
      exact ih _ hnext

theorem atoiFastLoop_bound (cs : List Char) (n m : Nat) (h : atoiFastLoop cs n = .ok m) :
    m + 1 ≤ (n + 1) * 10 ^ cs.length := by
  induction cs generalizing n with
  | nil =>
    simp only [atoiFastLoop, Except.ok.injEq] at h
    subst h
    simp
  | cons c cs ih =>
    simp only [atoiFastLoop] at h
    by_cases hc : isDigit c = false
    · rw [if_pos hc] at h
      exact absurd h (by simp)
    · rw [if_neg hc] at h
      have hd := digitVal_le c (by simpa using hc)
      have := ih _ h
      calc m + 1 ≤ (n * 10 + digitVal c + 1) * 10 ^ cs.length := this
        _ ≤ ((n + 1) * 10) * 10 ^ cs.length := Nat.mul_le_mul_right _ (by omega)
        _ = (n + 1) * 10 ^ (c :: cs).length := by rw [List.length_cons, pow_succ]; ring

/-- The fast path of `strconv.Atoi` returns what `ParseInt(s, 10, 0)` returns. -/
theorem Atoi_eq_ParseInt (s : List Char) : Atoi s = ParseInt s := by
  unfold Atoi
  split
  · rename_i hlen
    cases s with
    | nil => rfl
    | cons c rest =>
      rw [ParseInt_cons]
      dsimp only
      have hbody : unsignedPart (c :: rest) = (if c = '-' ∨ c = '+' then rest else c :: rest) := by
        simp only [unsignedPart]
        by_cases h1 : c = '-' <;> by_cases h2 : c = '+' <;> simp [h1, h2]
      rw [← hbody]
      have hblen : (unsignedPart (c :: rest)).length ≤ 18 := by
        have hl2 : rest.length + 1 < 19 := by simpa using hlen.2
        rw [hbody]
        split
        · omega
        · simp only [List.length_cons]
          omega
      cases hb : unsignedPart (c :: rest) with
      | nil => rfl
      | cons d ds =>
        rw [hb] at hblen
        have hpow : (10 : Nat) ^ (d :: ds).length ≤ 10 ^ 18 :=
          Nat.pow_le_pow_right (by norm_num) hblen
        have hfit : (0 + 1) * 10 ^ (d :: ds).length ≤ 2 ^ 64 := by
          rw [Nat.zero_add, Nat.one_mul]
          exact le_trans hpow (by norm_num)
        have hloop : ParseUint (d :: ds) = atoiFastLoop (d :: ds) 0 :=
          atoiFastLoop_eq (d :: ds) 0 hfit
        rw [hloop]
        dsimp only
        cases hl : atoiFastLoop (d :: ds) 0 with
        | error e => rfl
        | ok n =>
          have hn := atoiFastLoop_bound _ _ _ hl
          rw [Nat.zero_add, Nat.one_mul] at hn
          have hn18 : n + 1 ≤ 10 ^ 18 := le_trans hn hpow
          norm_num at hn18
          dsimp only
          rw [cutoff_eq]
          by_cases hneg : c = '-'
          · have h1 : ¬ (decide (c = '-') = false ∧ 9223372036854775808 ≤ n) := by simp [hneg]
            have h2 : ¬ (decide (c = '-') = true ∧ 9223372036854775808 < n) := by
              intro h
              omega
            rw [if_neg h1, if_neg h2]
            simp [hneg]
          · have h1 : ¬ (decide (c = '-') = false ∧ 9223372036854775808 ≤ n) := by
              intro h
              omega
            have h2 : ¬ (decide (c = '-') = true ∧ 9223372036854775808 < n) := by simp [hneg]
            rw [if_neg h1, if_neg h2]
            simp [hneg]
  · rfl

/-- `strconv.Atoi` accepts exactly the numeric lines whose value is a Go `int`, and
returns that value. -/
theorem Atoi_ok_iff (s : List Char) (n : Int) :
    Atoi s = .ok n ↔ isIntText s = true ∧ n = intValue s := by
  cases s with
  | nil => simp [Atoi_eq_ParseInt, ParseInt, isIntText, isNumeric, unsignedPart]
  | cons c rest =>
    rw [Atoi_eq_ParseInt, isIntText_iff, intValue_cons, minInt_eq, maxInt_eq]
    cases hp : ParseUint (unsignedPart (c :: rest)) with
    | error e =>
      rw [ParseInt_cons_error c rest e hp]
      simp only [reduceCtorEq, false_iff]
      rintro ⟨⟨hne, hd, hlo, hhi⟩, _⟩
      have hv : digitsValue (unsignedPart (c :: rest)) 0 ≤ maxUint64 := by
        rw [maxUint64_eq]
        by_cases hneg : c = '-'
        · rw [if_pos hneg] at hlo
          omega
        · rw [if_neg hneg] at hhi
          omega
      have := (ParseUint_ok_iff _ _).2 ⟨hne, hd, hv, rfl⟩
      rw [hp] at this
      exact absurd this (by simp)
    | ok un =>
      rw [ParseInt_cons_ok c rest un hp]
      obtain ⟨hne, hd, _, hun⟩ := (ParseUint_ok_iff _ _).1 hp
      rw [← hun]
      by_cases hneg : c = '-'
      · rw [if_pos hneg, if_pos hneg]
        by_cases hr : 9223372036854775808 < un
        · rw [if_pos hr]
          simp only [reduceCtorEq, false_iff]
          rintro ⟨⟨_, _, hlo, _⟩, _⟩
          omega
        · rw [if_neg hr]
          simp only [Except.ok.injEq]
          constructor
          · intro h
            exact ⟨⟨hne, hd, by omega, by omega⟩, h.symm⟩
          · rintro ⟨_, h⟩
            exact h.symm
      · rw [if_neg hneg, if_neg hneg]
        by_cases hr : 9223372036854775808 ≤ un
        · rw [if_pos hr]
          simp only [reduceCtorEq, false_iff]
          rintro ⟨⟨_, _, _, hhi⟩, _⟩
          omega
        · rw [if_neg hr]
          simp only [Except.ok.injEq]
          constructor
          · intro h
            exact ⟨⟨hne, hd, by omega, by omega⟩, h.symm⟩
          · rintro ⟨_, h⟩
            exact h.symm

theorem unsignedPart_digits (ds : List Char) (hd : ∀ c ∈ ds, isDigit c = true) :
    unsignedPart ds = ds := by
  cases ds with
  | nil => rfl
  | cons c rest =>
    simp only [unsignedPart]
    rw [if_neg (isDigit_ne_sign c (hd c (List.mem_cons_self _ _)))]

theorem intValue_digits (ds : List Char) (hd : ∀ c ∈ ds, isDigit c = true) :
    intValue ds = ((digitsValue ds 0 : Nat) : Int) := by
  cases ds with
  | nil => simp [intValue, unsignedPart]
  | cons c rest =>
    have hs := isDigit_ne_sign c (hd c (List.mem_cons_self _ _))
    rw [intValue_cons, unsignedPart_digits _ hd, if_neg (fun h => hs (Or.inr h))]

theorem formatBits_natAbs_value (i : Int) (hlo : minInt ≤ i) (hhi : i ≤ maxInt) :
    digitsValue (formatBits 64 i.natAbs []) 0 = i.natAbs := by
  rw [formatBits_value 64 i.natAbs [] ?_]
  · rfl
  · rw [minInt_eq] at hlo
    rw [maxInt_eq] at hhi
    have : i.natAbs ≤ 9223372036854775808 := by omega
    exact lt_of_le_of_lt this (by norm_num)

theorem Itoa_digits (i : Int) : ∀ c ∈ formatBits 64 i.natAbs [], isDigit c = true :=
  formatBits_digits 64 i.natAbs [] (by simp)

/-- The decimal text `strconv.Itoa` writes for a Go `int` is read back by
`strconv.Atoi` as the same value. -/
theorem Atoi_Itoa (i : Int) (hlo : minInt ≤ i) (hhi : i ≤ maxInt) : Atoi (Itoa i) = .ok i := by
  rw [Atoi_ok_iff, isIntText_iff]
  have hv := formatBits_natAbs_value i hlo hhi
  have hd := Itoa_digits i
  have hne := formatBits_ne_nil 64 i.natAbs []
  by_cases hneg : i < 0
  · have hI : Itoa i = '-' :: formatBits 64 i.natAbs [] := by simp [Itoa, hneg]
    have hu : unsignedPart (Itoa i) = formatBits 64 i.natAbs [] := by
      rw [hI]
      simp [unsignedPart]
    have hval : intValue (Itoa i) = i := by
      rw [hI, intValue_cons, if_pos rfl, ← hI, hu, hv]
      omega
    rw [hu, hval]
    exact ⟨⟨hne, hd, hlo, hhi⟩, rfl⟩
  · have hI : Itoa i = formatBits 64 i.natAbs [] := by simp [Itoa, hneg]
    have hval : intValue (Itoa i) = i := by
      rw [hI, intValue_digits _ hd, hv]
      omega
    rw [hval, hI, unsignedPart_digits _ hd]
    exact ⟨⟨hne, hd, hlo, hhi⟩, rfl⟩

theorem Itoa_ne_nil (i : Int) : Itoa i ≠ [] := by
  unfold Itoa
  split
  · simp
  · exact formatBits_ne_nil _ _ _

theorem Itoa_no_newline (i : Int) : '\n' ∉ Itoa i := by
  intro h
  unfold Itoa at h
  split at h
  · simp only [List.mem_cons] at h
    rcases h with h | h
    · exact absurd h (by decide)
    · exact isDigit_ne_newline _ (Itoa_digits i _ h) rfl
  · exact isDigit_ne_newline _ (Itoa_digits i _ h) rfl

/-! ## Lemmas on the registry -/

theorem Split_ne_nil (sep : Char) (s : List Char) : Split sep s ≠ [] := by
  cases s with
  | nil => simp [Split]
  | cons c cs =>
    simp only [Split]
    split
    · simp
    · split <;> simp

theorem Split_no_sep (sep : Char) (s : List Char) (h : sep ∉ s) : Split sep s = [s] := by
  induction s with
  | nil => rfl
  | cons c cs ih =>
    simp only [List.mem_cons, not_or] at h
    simp only [Split]
    rw [if_neg (fun hc => h.1 hc.symm), ih h.2]

theorem Split_cons (sep c : Char) (cs : List Char) :
    Split sep (c :: cs) =
      if c = sep then [] :: Split sep cs
      else
        match Split sep cs with
        | [] => [[c]]
        | l :: ls => (c :: l) :: ls := rfl

theorem Split_append_sep (sep : Char) (s t : List Char) :
    Split sep (s ++ sep :: t) = Split sep s ++ Split sep t := by
  induction s with
  | nil => simp [Split]
  | cons c cs ih =>
    rw [List.cons_append, Split_cons, Split_cons, ih]
    by_cases hc : c = sep
    · simp [hc]
    · rw [if_neg hc, if_neg hc]
      cases hs : Split sep cs with
      | nil => exact absurd hs (Split_ne_nil sep cs)
      | cons l ls => simp

theorem parseLines_cons (line : List Char) (lines : List (List Char)) :
    parseLines (line :: lines) =
      if line = [] then parseLines lines
      else
        match Atoi line with
        | .error e => .error (.parse e)
        | .ok pid =>
          match parseLines lines with
          | .error e => .error e
          | .ok pids => .ok (pid :: pids) := rfl

theorem parseLines_append (xs ys : List (List Char)) :
    parseLines (xs ++ ys) =
      match parseLines xs with
      | .error e => .error e
      | .ok pids =>
        match parseLines ys with
        | .error e => .error e
        | .ok more => .ok (pids ++ more) := by
  induction xs with
  | nil =>
    simp only [List.nil_append, parseLines]
    cases parseLines ys <;> simp
  | cons x xs ih =>
    rw [List.cons_append, parseLines_cons, parseLines_cons, ih]
    by_cases hx : x = []
    · rw [if_pos hx, if_pos hx]
    · rw [if_neg hx, if_neg hx]
      cases Atoi x with
      | error e => rfl
      | ok pid =>
        cases parseLines xs with
        | error e => rfl
        | ok pids =>
          cases parseLines ys with
          | error e => rfl
          | ok more => simp

theorem parseLines_Itoa_line (p : Int) (hlo : minInt ≤ p) (hhi : p ≤ maxInt) :
    parseLines [Itoa p, []] = .ok [p] := by
  rw [parseLines_cons, if_neg (Itoa_ne_nil p), Atoi_Itoa p hlo hhi]
  rfl

theorem Split_Itoa_line (p : Int) : Split '\n' (Itoa p ++ ['\n']) = [Itoa p, []] := by
  rw [Split_append_sep, Split_no_sep _ _ (Itoa_no_newline p)]
  rfl

theorem read_first_line (p : Int) (hlo : minInt ≤ p) (hhi : p ≤ maxInt) :
    readPIDsFromFile (.present (Itoa p ++ ['\n'])) = .ok [p] := by
  rw [readPIDsFromFile, Split_Itoa_line, parseLines_Itoa_line p hlo hhi]

theorem read_terminated (d : List Char) :
    readPIDsFromFile (.present (d ++ ['\n'])) = parseLines (Split '\n' d) := by
  rw [readPIDsFromFile, Split_append_sep, parseLines_append]
  cases parseLines (Split '\n' d) with
  | error e => rfl
  | ok pids => simp [Split, parseLines]

theorem read_next_line (d : List Char) (pids : List Int) (p : Int) (hlo : minInt ≤ p)
    (hhi : p ≤ maxInt) (h : readPIDsFromFile (.present (d ++ ['\n'])) = .ok pids) :
    readPIDsFromFile (.present ((d ++ ['\n']) ++ (Itoa p ++ ['\n']))) = .ok (pids ++ [p]) := by
  rw [read_terminated] at h
  have e : (d ++ ['\n']) ++ (Itoa p ++ ['\n']) = d ++ '\n' :: (Itoa p ++ ['\n']) := by simp
  rw [e, readPIDsFromFile, Split_append_sep, parseLines_append, h, Split_Itoa_line,
    parseLines_Itoa_line p hlo hhi]

/-- Appending the line of a Go `int` to a newline-terminated registry that loads gives
a registry that loads the old entries followed by the new one. -/
theorem read_append_line (f : PidFile) (pids : List Int) (p : Int) (hlo : minInt ≤ p)
    (hhi : p ≤ maxInt) (hload : readPIDsFromFile f = .ok pids) (ht : newlineTerminated f) :
    readPIDsFromFile (.present (f.content ++ (Itoa p ++ ['\n']))) = .ok (pids ++ [p]) := by
  cases f with
  | absent =>
    simp only [readPIDsFromFile, Except.ok.injEq] at hload
    subst hload
    simpa [PidFile.content] using read_first_line p hlo hhi
  | unreadable => simp [readPIDsFromFile] at hload
  | present data =>
    rcases ht with h0 | hl
    · simp only [PidFile.content] at h0
      subst h0
      simp only [readPIDsFromFile, Split, parseLines, if_true, Except.ok.injEq] at hload
      subst hload
      simpa [PidFile.content] using read_first_line p hlo hhi
    · simp only [PidFile.content] at hl
      obtain ⟨d, rfl⟩ := List.getLast?_eq_some_iff.1 hl
      exact read_next_line d pids p hlo hhi hload

theorem bytesWritten_of_complete (w : WriteEnv) (text : List Char) (h : w.shortWrite = none) :
    w.bytesWritten text = text := by
  simp [WriteEnv.bytesWritten, h]

theorem addPIDToFile_of_mem (w : WriteEnv) (f : PidFile) (pids : List Int) (p : Int)
    (hload : readPIDsFromFile f = .ok pids) (hmem : p ∈ pids) : addPIDToFile w f p = f := by
  simp [addPIDToFile, hload, hmem]

theorem addPIDToFile_of_open_failure (w : WriteEnv) (f : PidFile) (p : Int)
    (ho : w.openOk = false) : addPIDToFile w f p = f := by
  unfold addPIDToFile
  split <;> simp [ho]

theorem addPIDToFile_of_write (w : WriteEnv) (f : PidFile) (pids : List Int) (p : Int)
    (hload : readPIDsFromFile f = .ok pids) (hmem : p ∉ pids) (ho : w.openOk = true) :
    addPIDToFile w f p = .present (f.content ++ w.bytesWritten (Itoa p ++ ['\n'])) := by
  simp [addPIDToFile, hload, hmem, ho]

theorem addPIDToFile_of_not_mem (w : WriteEnv) (f : PidFile) (pids : List Int) (p : Int)
    (hload : readPIDsFromFile f = .ok pids) (hmem : p ∉ pids) (ho : w.openOk = true)
    (hw : w.shortWrite = none) :
    addPIDToFile w f p = .present (f.content ++ (Itoa p ++ ['\n'])) := by
  rw [addPIDToFile_of_write w f pids p hload hmem ho, bytesWritten_of_complete w _ hw]

theorem addPIDToFile_of_error (w : WriteEnv) (f : PidFile) (e : LoadError) (p : Int)
    (hload : readPIDsFromFile f = .error e) : addPIDToFile w f p = f := by
  simp [addPIDToFile, hload]

theorem newlineTerminated_append (d : List Char) (p : Int) :
    newlineTerminated (.present (d ++ (Itoa p ++ ['\n']))) := by
  right
  simp [PidFile.content]

theorem newlineTerminated_addPIDToFile (w : WriteEnv) (f : PidFile) (p : Int)
    (hw : w.shortWrite = none) (ht : newlineTerminated f) :
    newlineTerminated (addPIDToFile w f p) := by
  unfold addPIDToFile
  split
  · exact ht
  · split
    · exact ht
    · split
      · exact ht
      · rw [bytesWritten_of_complete w _ hw]
        exact newlineTerminated_append _ _

/-- What `load` returns after one `append` whose open and write succeed, on a
newline-terminated registry that loads: the same entries when `p` is among them, the
entries followed by `p` otherwise. -/
theorem read_addPIDToFile (w : WriteEnv) (f : PidFile) (pids : List Int) (p : Int)
    (hlo : minInt ≤ p) (hhi : p ≤ maxInt) (ho : w.openOk = true) (hw : w.shortWrite = none)
    (hload : readPIDsFromFile f = .ok pids) (ht : newlineTerminated f) :
    readPIDsFromFile (addPIDToFile w f p) = .ok (if p ∈ pids then pids else pids ++ [p]) := by
  by_cases hmem : p ∈ pids
  · rw [addPIDToFile_of_mem w f pids p hload hmem, if_pos hmem, hload]
  · rw [addPIDToFile_of_not_mem w f pids p hload hmem ho hw, if_neg hmem,
      read_append_line f pids p hlo hhi hload ht]

theorem firstOccurrences_filter_append (ps acc : List Int) (p : Int) :
    (firstOccurrences ps).filter (fun q => decide (q ∉ acc ++ [p])) =
      ((firstOccurrences ps).filter (fun q => decide (q ≠ p))).filter
        (fun q => decide (q ∉ acc)) := by
  rw [List.filter_filter]
  congr 1
  funext q
  by_cases h1 : q ∈ acc <;> by_cases h2 : q = p <;> simp [h1, h2]

theorem firstOccurrences_filter_mem (ps acc : List Int) (p : Int) (hmem : p ∈ acc) :
    ((firstOccurrences ps).filter (fun q => decide (q ≠ p))).filter
        (fun q => decide (q ∉ acc)) =
      (firstOccurrences ps).filter (fun q => decide (q ∉ acc)) := by
  rw [List.filter_filter]
  congr 1
  funext q
  by_cases h2 : q = p
  · subst h2
    simp [hmem]
  · simp [h2]

/-- A run of `append` calls whose opens and writes succeed, from a newline-terminated
registry that loads `acc`: the registry then loads `acc` followed by the identifiers not
in `acc`, each at its first insertion. -/
theorem read_appendAll (calls : List (WriteEnv × Int)) (f : PidFile) (acc : List Int)
    (hr : ∀ c ∈ calls, minInt ≤ c.2 ∧ c.2 ≤ maxInt)
    (hw : ∀ c ∈ calls, c.1.openOk = true ∧ c.1.shortWrite = none)
    (hload : readPIDsFromFile f = .ok acc) (ht : newlineTerminated f) :
    readPIDsFromFile (appendAll calls f) =
        .ok (acc ++ (firstOccurrences (calls.map Prod.snd)).filter
          (fun q => decide (q ∉ acc))) ∧
      newlineTerminated (appendAll calls f) := by
  induction calls generalizing f acc with
  | nil => simpa [firstOccurrences, appendAll] using ⟨hload, ht⟩
  | cons c calls ih =>
    have hp := hr c (List.mem_cons_self _ _)
    have hc := hw c (List.mem_cons_self _ _)
    have hr2 : ∀ d ∈ calls, minInt ≤ d.2 ∧ d.2 ≤ maxInt :=
      fun d hd => hr d (List.mem_cons_of_mem _ hd)
    have hw2 : ∀ d ∈ calls, d.1.openOk = true ∧ d.1.shortWrite = none :=
      fun d hd => hw d (List.mem_cons_of_mem _ hd)
    have hstep := read_addPIDToFile c.1 f acc c.2 hp.1 hp.2 hc.1 hc.2 hload ht
    have ht2 := newlineTerminated_addPIDToFile c.1 f c.2 hc.2 ht
    have hunfold : appendAll (c :: calls) f = appendAll calls (addPIDToFile c.1 f c.2) := rfl
    rw [hunfold, List.map_cons]
    by_cases hmem : c.2 ∈ acc
    · rw [if_pos hmem] at hstep
      obtain ⟨h1, h2⟩ := ih (addPIDToFile c.1 f c.2) acc hr2 hw2 hstep ht2
      refine ⟨?_, h2⟩
      rw [h1]
      simp only [firstOccurrences, List.filter_cons, hmem, not_true_eq_false, decide_False,
        Bool.false_eq_true, if_false]
      rw [firstOccurrences_filter_mem _ acc c.2 hmem]
    · rw [if_neg hmem] at hstep
      obtain ⟨h1, h2⟩ := ih (addPIDToFile c.1 f c.2) (acc ++ [c.2]) hr2 hw2 hstep ht2
      refine ⟨?_, h2⟩
      rw [h1, firstOccurrences_filter_append]
      simp [firstOccurrences, List.filter_cons, hmem]

theorem firstOccurrences_filter_nil (ps : List Int) :
    (firstOccurrences ps).filter (fun q => decide (q ∉ ([] : List Int))) = firstOccurrences ps := by
  simp

theorem mem_firstOccurrences (ps : List Int) (q : Int) : q ∈ firstOccurrences ps ↔ q ∈ ps := by
  induction ps with
  | nil => simp [firstOccurrences]
  | cons p ps ih =>
    simp only [firstOccurrences, List.mem_cons, List.mem_filter, ih, decide_eq_true_eq]
    by_cases h : q = p <;> simp [h]

theorem nodup_firstOccurrences (ps : List Int) : (firstOccurrences ps).Nodup := by
  induction ps with
  | nil => simp [firstOccurrences]
  | cons p ps ih =>
    simp only [firstOccurrences, List.nodup_cons, List.mem_filter, decide_eq_true_eq]
    exact ⟨fun h => h.2 rfl, ih.filter _⟩

theorem Atoi_of_isIntText (line : List Char) (h : isIntText line = true) :
    Atoi line = .ok (intValue line) :=
  (Atoi_ok_iff line (intValue line)).2 ⟨h, rfl⟩

theorem Atoi_of_not_isIntText (line : List Char) (h : isIntText line = false) :
    ∃ e, Atoi line = .error e := by
  cases ha : Atoi line with
  | error e => exact ⟨e, rfl⟩
  | ok n =>
    have := ((Atoi_ok_iff line n).1 ha).1
    rw [h] at this
    exact absurd this (by simp)

theorem parseLines_ok (lines : List (List Char))
    (h : ∀ line ∈ lines, line ≠ [] → isIntText line = true) :
    parseLines lines = .ok ((lines.filter (fun line => decide (line ≠ []))).map intValue) := by
  induction lines with
  | nil => rfl
  | cons l ls ih =>
    have ih2 := ih (fun line hl => h line (List.mem_cons_of_mem _ hl))
    rw [parseLines_cons]
    by_cases hl : l = []
    · rw [if_pos hl, ih2]
      simp [hl]
    · rw [if_neg hl, Atoi_of_isIntText l (h l (List.mem_cons_self _ _) hl), ih2]
      simp [hl]

theorem parseLines_error (lines : List (List Char))
    (h : ∃ line ∈ lines, line ≠ [] ∧ isIntText line = false) :
    ∃ e, parseLines lines = .error (.parse e) := by
  induction lines with
  | nil => simp at h
  | cons l ls ih =>
    obtain ⟨line, hmem, hne, hbad⟩ := h
    rw [parseLines_cons]
    by_cases hl : l = []
    · rw [if_pos hl]
      simp only [List.mem_cons] at hmem
      rcases hmem with rfl | hmem
      · exact absurd hl hne
      · exact ih ⟨line, hmem, hne, hbad⟩
    · rw [if_neg hl]
      cases ha : Atoi l with
      | error e => exact ⟨e, rfl⟩
      | ok pid =>
        simp only [List.mem_cons] at hmem
        rcases hmem with rfl | hmem
        · obtain ⟨e, he⟩ := Atoi_of_not_isIntText _ hbad
          rw [he] at ha
          exact absurd ha (by simp)
        · obtain ⟨e, he⟩ := ih ⟨line, hmem, hne, hbad⟩
          exact ⟨e, by rw [he]⟩

theorem isProcessAlive_no_start (env : Env) (pid : Int) :
    (isProcessAlive env pid).2.filter Event.isStart = [] := by
  unfold isProcessAlive
  split
  · rfl
  · split <;> rfl

theorem startCounterpart_pid (role : Role) (env : Env) (file : PidFile) :
    (startCounterpart role env file).pid = env.start := by
  cases role <;> simp only [startCounterpart, startWorker, startMonitor] <;> cases env.start <;> rfl

theorem startCounterpart_trace (role : Role) (env : Env) (file : PidFile) :
    (startCounterpart role env file).trace = [.start role.opposite (Itoa env.getpid)] := by
  cases role <;> simp only [startCounterpart, startWorker, startMonitor] <;> cases env.start <;> rfl

theorem startCounterpart_pidFile (role : Role) (env : Env) (file : PidFile) (child : Int)
    (h : env.start = some child) :
    (startCounterpart role env file).pidFile = addPIDToFile env.pidWrite file child := by
  cases role <;> simp only [startCounterpart, startWorker, startMonitor, h]

theorem pollIteration_sentinel (role : Role) (env : Env) (file : PidFile) (partnerPID : Int)
    (h : isSignalFileExist env = true) :
    pollIteration role env file partnerPID =
      ⟨.exited 0, file, [.stat, .print .signalFileExist]⟩ := by
  simp [pollIteration, h]

theorem pollIteration_alive (role : Role) (env : Env) (file : PidFile) (partnerPID : Int)
    (hs : isSignalFileExist env = false) (ha : (isProcessAlive env partnerPID).1 = true) :
    pollIteration role env file partnerPID =
      ⟨.running partnerPID, file,
        .stat :: (isProcessAlive env partnerPID).2 ++ [.print (workMsg role), .sleep]⟩ := by
  simp [pollIteration, hs, ha]

theorem pollIteration_respawn (role : Role) (env : Env) (file : PidFile) (partnerPID child : Int)
    (hs : isSignalFileExist env = false) (ha : (isProcessAlive env partnerPID).1 = false)
    (hc : env.start = some child) :
    pollIteration role env file partnerPID =
      ⟨.running child, addPIDToFile env.pidWrite file child,
        .stat :: (isProcessAlive env partnerPID).2 ++ .print (notAliveMsg role) ::
          [.start role.opposite (Itoa env.getpid)] ++ [.print (workMsg role), .sleep]⟩ := by
  have h1 := startCounterpart_pid role env file
  rw [hc] at h1
  simp only [pollIteration, hs, ha, h1, startCounterpart_trace,
    startCounterpart_pidFile role env file child hc]
  simp

theorem pollIteration_spawn_failure (role : Role) (env : Env) (file : PidFile) (partnerPID : Int)
    (hs : isSignalFileExist env = false) (ha : (isProcessAlive env partnerPID).1 = false)
    (hc : env.start = none) :
    (pollIteration role env file partnerPID).status = .panicked := by
  have h1 := startCounterpart_pid role env file
  rw [hc] at h1
  simp only [pollIteration, hs, ha, h1]
  simp

theorem pollIteration_exit (role : Role) (env : Env) (file : PidFile) (partnerPID : Int)
    (code : Nat) (h : (pollIteration role env file partnerPID).status = .exited code) :
    code = 0 ∧ isSignalFileExist env = true := by
  cases hs : isSignalFileExist env with
  | true =>
    rw [pollIteration_sentinel role env file partnerPID hs] at h
    simp only [Status.exited.injEq] at h
    exact ⟨h.symm, rfl⟩
  | false =>
    exfalso
    cases ha : (isProcessAlive env partnerPID).1 with
    | true =>
      rw [pollIteration_alive role env file partnerPID hs ha] at h
      simp at h
    | false =>
      cases hc : env.start with
      | none =>
        rw [pollIteration_spawn_failure role env file partnerPID hs ha hc] at h
        simp at h
      | some child =>
        rw [pollIteration_respawn role env file partnerPID child hs ha hc] at h
        simp at h

theorem superviseLoop_exit (role : Role) (envs : List Env) (file : PidFile) (partnerPID : Int)
    (code : Nat) (h : (superviseLoop role envs file partnerPID).status = .exited code) :
    code = 0 ∧ ∃ env ∈ envs, isSignalFileExist env = true := by
  induction envs generalizing file partnerPID with
  | nil => simp [superviseLoop] at h
  | cons env envs ih =>
    simp only [superviseLoop] at h
    split at h
    · obtain ⟨h1, e, he, h2⟩ := ih _ _ h
      exact ⟨h1, e, List.mem_cons_of_mem _ he, h2⟩
    · obtain ⟨h1, h2⟩ := pollIteration_exit role env file partnerPID code h
      exact ⟨h1, env, List.mem_cons_self _ _, h2⟩

/-! ## The registry claims -/

/-- C1, as amended: when the registry loads, is absent, empty or newline-terminated,
and holds the Go `int` `p` at most once, and when, unless `p` is already listed, the
first call opens the file and completes its write, two `append(p)` calls in a row leave
a registry that loads and holds `p` exactly once. -/
theorem append_twice_one_entry (w1 w2 : WriteEnv) (f : PidFile) (pids : List Int) (p : Int)
    (hlo : minInt ≤ p) (hhi : p ≤ maxInt) (hload : readPIDsFromFile f = .ok pids)
    (ht : newlineTerminated f) (hc : pids.count p ≤ 1)
    (hio : p ∈ pids ∨ (w1.openOk = true ∧ w1.shortWrite = none)) :
    ∃ after, readPIDsFromFile (addPIDToFile w2 (addPIDToFile w1 f p) p) = .ok after ∧
      after.count p = 1 := by
  by_cases hmem : p ∈ pids
  · refine ⟨pids, ?_, ?_⟩
    · rw [addPIDToFile_of_mem w1 f pids p hload hmem, addPIDToFile_of_mem w2 f pids p hload hmem,
        hload]
    · have hpos : 0 < pids.count p := List.count_pos_iff.2 hmem
      omega
  · have hw : w1.openOk = true ∧ w1.shortWrite = none := hio.resolve_left hmem
    have h1 := read_addPIDToFile w1 f pids p hlo hhi hw.1 hw.2 hload ht
    rw [if_neg hmem] at h1
    refine ⟨pids ++ [p], ?_, ?_⟩
    · rw [addPIDToFile_of_mem w2 _ (pids ++ [p]) p h1 (by simp), h1]
    · have h0 : pids.count p = 0 := List.count_eq_zero_of_not_mem hmem
      simp [h0, List.count_append]

/-- C1, witness: the registry `"42\n"` after two `append(7)` calls, the first of which
writes. -/
theorem append_twice_one_entry_witness :
    ∃ after,
      readPIDsFromFile
          (addPIDToFile ⟨false, none⟩ (addPIDToFile WriteEnv.healthy (.present "42\n".toList) 7) 7) =
        .ok after ∧ after.count 7 = 1 :=
  append_twice_one_entry WriteEnv.healthy ⟨false, none⟩ (.present "42\n".toList) [42] 7
    (by decide) (by decide) (by decide) (Or.inr (by decide)) (by decide)
    (Or.inr ⟨by decide, by decide⟩)

/-- C1, counterexamples: after two `append` calls a registry with a non-numeric line
still fails to load; a registry listing `7` twice still lists it twice; a registry whose
last line `9223372036854775807` has no newline loads before, but not after, `append(1)`;
and an absent file that cannot be opened stays absent, so that `load` returns no entry
for `7`. -/
theorem append_twice_counterexample :
    readPIDsFromFile
        (addPIDToFile WriteEnv.healthy (addPIDToFile WriteEnv.healthy (.present "x\n".toList) 7) 7) =
        .error (.parse .syntaxErr) ∧
      readPIDsFromFile
          (addPIDToFile WriteEnv.healthy
            (addPIDToFile WriteEnv.healthy (.present "7\n7\n".toList) 7) 7) =
        .ok [7, 7] ∧
      readPIDsFromFile (.present "9223372036854775807".toList) = .ok [9223372036854775807] ∧
      readPIDsFromFile
          (addPIDToFile WriteEnv.healthy
            (addPIDToFile WriteEnv.healthy (.present "9223372036854775807".toList) 1) 1) =
        .error (.parse .rangeErr) ∧
      addPIDToFile ⟨false, none⟩ (addPIDToFile ⟨false, none⟩ .absent 7) 7 = .absent ∧
      readPIDsFromFile (addPIDToFile ⟨false, none⟩ (addPIDToFile ⟨false, none⟩ .absent 7) 7) =
        .ok [] := by
  decide

/-- C2, as amended: `append(p)` leaves the file as it is when `load` succeeds and
returns `p`, and when `load` fails. When `load` succeeds without `p`: if the file cannot
be opened for appending it is left as it is (an absent file stays absent); if it is
opened and the write completes, its content becomes the previous content (empty for an
absent file, which is created) followed by the decimal text of `p` and one newline; if
the write stops after `n` bytes, only the first `n` bytes of that text are appended. The
decimal text holds no newline of its own. -/
theorem addPIDToFile_contract (w : WriteEnv) (f : PidFile) (p : Int) :
    (∀ pids, readPIDsFromFile f = .ok pids → p ∈ pids → addPIDToFile w f p = f) ∧
      (∀ e, readPIDsFromFile f = .error e → addPIDToFile w f p = f) ∧
      (∀ pids, readPIDsFromFile f = .ok pids → p ∉ pids → w.openOk = false →
        addPIDToFile w f p = f) ∧
      (∀ pids, readPIDsFromFile f = .ok pids → p ∉ pids → w.openOk = true →
        w.shortWrite = none →
        addPIDToFile w f p = .present (f.content ++ (Itoa p ++ ['\n']))) ∧
      (∀ pids n, readPIDsFromFile f = .ok pids → p ∉ pids → w.openOk = true →
        w.shortWrite = some n →
        addPIDToFile w f p = .present (f.content ++ (Itoa p ++ ['\n']).take n)) ∧
      PidFile.absent.content = [] ∧ '\n' ∉ Itoa p := by
  refine ⟨fun pids h hm => addPIDToFile_of_mem w f pids p h hm,
    fun e h => addPIDToFile_of_error w f e p h,
    fun pids _ _ ho => addPIDToFile_of_open_failure w f p ho,
    fun pids h hm ho hw => addPIDToFile_of_not_mem w f pids p h hm ho hw, ?_, rfl,
    Itoa_no_newline p⟩
  intro pids n h hm ho hn
  rw [addPIDToFile_of_write w f pids p h hm ho]
  simp [WriteEnv.bytesWritten, hn]

/-- C2, witness: the scenarios `"42\n"` with `append(42)` and with `append(7)`, an
absent file that is created, a file that does not load, a file that cannot be opened,
and a write that stops after one byte. -/
theorem addPIDToFile_contract_witness :
    addPIDToFile WriteEnv.healthy (.present "42\n".toList) 42 = .present "42\n".toList ∧
      addPIDToFile WriteEnv.healthy (.present "42\n".toList) 7 = .present "42\n7\n".toList ∧
      addPIDToFile WriteEnv.healthy .absent 7 = .present "7\n".toList ∧
      addPIDToFile WriteEnv.healthy (.present "x\n".toList) 7 = .present "x\n".toList ∧
      addPIDToFile ⟨false, none⟩ (.present "42\n".toList) 7 = .present "42\n".toList ∧
      addPIDToFile ⟨true, some 1⟩ (.present "42\n".toList) 77 = .present "42\n7".toList :=
  ⟨(addPIDToFile_contract WriteEnv.healthy (.present "42\n".toList) 42).1 [42] (by decide)
      (by decide),
    (addPIDToFile_contract WriteEnv.healthy (.present "42\n".toList) 7).2.2.2.1 [42]
      (by decide) (by decide) (by decide) (by decide),
    (addPIDToFile_contract WriteEnv.healthy .absent 7).2.2.2.1 [] (by decide) (by decide)
      (by decide) (by decide),
    (addPIDToFile_contract WriteEnv.healthy (.present "x\n".toList) 7).2.1
      (.parse .syntaxErr) (by decide),
    (addPIDToFile_contract ⟨false, none⟩ (.present "42\n".toList) 7).2.2.1 [42] (by decide)
      (by decide) (by decide),
    (addPIDToFile_contract ⟨true, some 1⟩ (.present "42\n".toList) 77).2.2.2.2.1 [42] 1
      (by decide) (by decide) (by decide) (by decide)⟩

/-- C2, counterexamples: `load` of an absent file succeeds without `7`, yet when the
file cannot be opened `append(7)` creates nothing; and `load` of `"42\n"` succeeds
without `77`, yet when the write stops after one byte the content becomes `"42\n7"`, not
`"42\n77\n"`. -/
theorem addPIDToFile_write_failure :
    readPIDsFromFile .absent = .ok [] ∧
      addPIDToFile ⟨false, none⟩ .absent 7 = .absent ∧
      addPIDToFile ⟨false, none⟩ .absent 7 ≠ .present "7\n".toList ∧
      readPIDsFromFile (.present "42\n".toList) = .ok [42] ∧
      addPIDToFile ⟨true, some 1⟩ (.present "42\n".toList) 77 = .present "42\n7".toList ∧
      addPIDToFile ⟨true, some 1⟩ (.present "42\n".toList) 77 ≠
        .present "42\n77\n".toList := by
  decide

/-- C3, as amended: `load` of an absent file is the empty sequence; for a present file
it splits the content on newline, skips the empty lines, and returns the integers of the
other lines in file order when each of them is a numeric line whose value is a Go `int`;
it fails, with a parse error, exactly when some non-empty line is not such a line. -/
theorem readPIDsFromFile_contract (data : List Char) :
    readPIDsFromFile .absent = .ok [] ∧
      ((∀ line ∈ Split '\n' data, line ≠ [] → isIntText line = true) →
        readPIDsFromFile (.present data) =
          .ok (((Split '\n' data).filter (fun line => decide (line ≠ []))).map intValue)) ∧
      ((∃ line ∈ Split '\n' data, line ≠ [] ∧ isIntText line = false) →
        ∃ e, readPIDsFromFile (.present data) = .error (.parse e)) ∧
      ((∃ e, readPIDsFromFile (.present data) = .error e) ↔
        ∃ line ∈ Split '\n' data, line ≠ [] ∧ isIntText line = false) := by
  refine ⟨rfl, parseLines_ok _, parseLines_error _, ?_, ?_⟩
  · rintro ⟨e, he⟩
    by_contra hno
    have hall : ∀ line ∈ Split '\n' data, line ≠ [] → isIntText line = true := by
      intro line hl hne
      by_contra hb
      exact hno ⟨line, hl, hne, by simpa using hb⟩
    have := parseLines_ok _ hall
    simp only [readPIDsFromFile] at he
    rw [he] at this
    exact absurd this (by simp)
  · intro h
    obtain ⟨e, he⟩ := parseLines_error _ h
    exact ⟨.parse e, he⟩

/-- C3, witness: a file with a blank trailing line, and a file with a non-numeric
line. -/
theorem readPIDsFromFile_contract_witness :
    readPIDsFromFile (.present "42\n7\n\n".toList) = .ok [42, 7] ∧
      ∃ e, readPIDsFromFile (.present "42\nx\n7\n".toList) = .error (.parse e) :=
  ⟨(readPIDsFromFile_contract "42\n7\n\n".toList).2.1 (by decide),
    (readPIDsFromFile_contract "42\nx\n7\n".toList).2.2.1 (by decide)⟩

/-- C3, counterexample: the only non-empty line of `"9223372036854775808\n"` is numeric
(all decimal digits), yet `load` fails: the value is outside the Go `int` range. -/
theorem readPIDsFromFile_numeric_line_fails :
    Split '\n' "9223372036854775808\n".toList = ["9223372036854775808".toList, []] ∧
      isNumeric "9223372036854775808".toList = true ∧
      readPIDsFromFile (.present "9223372036854775808\n".toList) =
        .error (.parse .rangeErr) := by
  decide

/-- C10, as amended: from an absent registry file, after `append` calls with Go `int`s
in order, each of which opens the file and completes its write, `load` succeeds and
returns the distinct identifiers of the calls, each once, in order of first insertion;
and one more `append`, whose write is not cut short, gives a registry that loads and
still holds every identifier returned before it. -/
theorem registry_after_appends (calls : List (WriteEnv × Int))
    (hr : ∀ c ∈ calls, minInt ≤ c.2 ∧ c.2 ≤ maxInt)
    (hw : ∀ c ∈ calls, c.1.openOk = true ∧ c.1.shortWrite = none) :
    readPIDsFromFile (appendAll calls .absent) =
        .ok (firstOccurrences (calls.map Prod.snd)) ∧
      (firstOccurrences (calls.map Prod.snd)).Nodup ∧
      (∀ q, q ∈ firstOccurrences (calls.map Prod.snd) ↔ q ∈ calls.map Prod.snd) ∧
      ∀ w p, minInt ≤ p → p ≤ maxInt → w.shortWrite = none →
        ∃ later, readPIDsFromFile (addPIDToFile w (appendAll calls .absent) p) = .ok later ∧
          ∀ q ∈ firstOccurrences (calls.map Prod.snd), q ∈ later := by
  have h := read_appendAll calls .absent [] hr hw rfl (Or.inl rfl)
  rw [List.nil_append, firstOccurrences_filter_nil] at h
  refine ⟨h.1, nodup_firstOccurrences _, mem_firstOccurrences _, ?_⟩
  intro w p hlo hhi hsw
  cases ho : w.openOk with
  | false =>
    refine ⟨_, ?_, fun q hq => hq⟩
    rw [addPIDToFile_of_open_failure w _ p ho, h.1]
  | true =>
    refine ⟨_, read_addPIDToFile w _ _ p hlo hhi ho hsw h.1 h.2, ?_⟩
    intro q hq
    split
    · exact hq
    · exact List.mem_append_left _ hq

/-- C10, witness: the appends `3, 1, 3, 2, 1`, all written, leave the registry
`3, 1, 2`. -/
theorem registry_after_appends_witness :
    readPIDsFromFile
        (appendAll [(WriteEnv.healthy, 3), (WriteEnv.healthy, 1), (WriteEnv.healthy, 3),
          (WriteEnv.healthy, 2), (WriteEnv.healthy, 1)] .absent) = .ok [3, 1, 2] :=
  (registry_after_appends [(WriteEnv.healthy, 3), (WriteEnv.healthy, 1), (WriteEnv.healthy, 3),
    (WriteEnv.healthy, 2), (WriteEnv.healthy, 1)] (by decide) (by decide)).1

/-- C10, counterexamples: when the file cannot be opened, `append(7)` from an absent
file leaves a registry that loads no entry; and when the write of `append(7)` stops
before the newline, `load` returns `42, 7` and, after `append(5)`, returns `42, 75`: the
entry `7` is gone. -/
theorem registry_after_appends_write_failure :
    readPIDsFromFile (appendAll [(⟨false, none⟩, 7)] .absent) = .ok [] ∧
      firstOccurrences [7] = [7] ∧
      readPIDsFromFile (appendAll [(WriteEnv.healthy, 42), (⟨true, some 1⟩, 7)] .absent) =
        .ok [42, 7] ∧
      readPIDsFromFile
          (addPIDToFile WriteEnv.healthy
            (appendAll [(WriteEnv.healthy, 42), (⟨true, some 1⟩, 7)] .absent) 5) =
        .ok [42, 75] := by
  decide

/-! ## The stop command -/

/-- The `stop` command never sends a signal and never touches the registry: its whole
effect is `createSignalFile`. -/
theorem stopCmd_no_signal (env : Env) (file : PidFile) :
    (stopCmd env file).trace.filter Event.isSignal = [] ∧ (stopCmd env file).pidFile = file := by
  unfold stopCmd createSignalFile
  split <;> exact ⟨rfl, rfl⟩

/-- The loop of `stopAllProcesses` looks up every identifier of the list, and signals
every one whose lookup succeeds, whatever happened to the identifiers before it. -/
theorem signalAll_attempts_all (env : Env) (pids : List Int) (pid : Int) (h : pid ∈ pids) :
    Event.findProcess pid ∈ signalAll env pids ∧
      (env.findProcess pid = true → Event.signal pid .term ∈ signalAll env pids) := by
  induction pids with
  | nil => simp at h
  | cons q qs ih =>
    simp only [List.mem_cons] at h
    simp only [signalAll, List.mem_append]
    rcases h with rfl | h
    · refine ⟨Or.inl ?_, fun hf => Or.inl ?_⟩
      · unfold signalOne
        split
        · simp
        · split <;> simp
      · unfold signalOne
        rw [if_neg (by simp [hf])]
        split <;> simp
    · exact ⟨Or.inr (ih h).1, fun hf => Or.inr ((ih h).2 hf)⟩

/-- C4, the code at the failing input: with the registry `"42\n7\n"` the `stop` command
creates the sentinel and sends no signal at all; `stopAllProcesses`, which would signal
`42` and `7` (going on after the failure for `42`), is not part of it. -/
theorem stopCmd_signals_nobody :
    readPIDsFromFile (.present "42\n7\n".toList) = .ok [42, 7] ∧
      stopCmd unixHost (.present "42\n7\n".toList) =
        ⟨.returned, .present "42\n7\n".toList, [.print .creatingStopSignalFile, .create]⟩ ∧
      (stopCmd unixHost (.present "42\n7\n".toList)).trace.filter Event.isSignal = [] ∧
      (stopAllProcesses unixHost (.present "42\n7\n".toList)).trace.filter Event.isSignal =
        [.signal 42 .term, .signal 7 .term] := by
  decide

/-! ## The liveness check -/

/-- On a Unix host `isProcessAlive` answers `true` for every identifier. -/
theorem isProcessAlive_unix (running : Int → Bool) (getpid : Int) (stat : StatResult)
    (start : Option Int) (create : Bool) (pid : Int) :
    (isProcessAlive (hostEnv .linux running getpid stat start create) pid).1 = true := by
  simp [isProcessAlive, hostEnv, osFindProcess]

/-- On a Windows host `isProcessAlive` answers `false` for every identifier. -/
theorem isProcessAlive_windows (running : Int → Bool) (getpid : Int) (stat : StatResult)
    (start : Option Int) (create : Bool) (pid : Int) :
    (isProcessAlive (hostEnv .windows running getpid stat start create) pid).1 = false := by
  simp only [isProcessAlive, hostEnv, osFindProcess, osSignal]
  split <;> simp

/-- C7, the code at the failing input: on the Unix host no process `4242` is running,
and `isProcessAlive 4242` is `true`. -/
theorem isProcessAlive_exited_process_on_unix :
    unixHost.goos = .linux ∧ unixHost.running 4242 = false ∧
      isProcessAlive unixHost 4242 = (true, [.findProcess 4242]) := by
  decide

/-! ## The poll iteration -/

theorem isSignalFileExist_iff (env : Env) :
    isSignalFileExist env = true ↔ env.stat ≠ .notExist := by
  unfold isSignalFileExist
  cases env.stat <;> simp

/-- C5, as amended: for both roles, in an iteration with the sentinel check negative, a
partner reported not alive and a spawn that yields a child, there is exactly one spawn,
of the opposite role with the supervisor's own identifier as partner argument, and the
child's identifier becomes the stored partner identifier. The child's identifier is
passed to `addPIDToFile`: a registry that loads, is absent, empty or newline-terminated,
and can be opened and written lists the child afterwards, next to all it listed before;
a registry that does not load, or cannot be opened, is left as it is. With the partner
reported alive there is no spawn, and partner identifier and registry stay as they
are. -/
theorem respawn_iteration (role : Role) (env : Env) (file : PidFile) (partnerPID : Int)
    (hs : isSignalFileExist env = false) :
    (∀ child, (isProcessAlive env partnerPID).1 = false → env.start = some child →
        (pollIteration role env file partnerPID).status = .running child ∧
        (pollIteration role env file partnerPID).trace.filter Event.isStart =
          [.start role.opposite (Itoa env.getpid)] ∧
        (pollIteration role env file partnerPID).pidFile =
          addPIDToFile env.pidWrite file child ∧
        (∀ pids, readPIDsFromFile file = .ok pids → newlineTerminated file →
          minInt ≤ child → child ≤ maxInt →
          env.pidWrite.openOk = true → env.pidWrite.shortWrite = none →
          ∃ after, readPIDsFromFile (pollIteration role env file partnerPID).pidFile = .ok after ∧
            child ∈ after ∧ ∀ q ∈ pids, q ∈ after) ∧
        (∀ e, readPIDsFromFile file = .error e →
          (pollIteration role env file partnerPID).pidFile = file) ∧
        (env.pidWrite.openOk = false →
          (pollIteration role env file partnerPID).pidFile = file)) ∧
      ((isProcessAlive env partnerPID).1 = true →
        (pollIteration role env file partnerPID).status = .running partnerPID ∧
        (pollIteration role env file partnerPID).pidFile = file ∧
        (pollIteration role env file partnerPID).trace.filter Event.isStart = []) := by
  constructor
  · intro child ha hc
    rw [pollIteration_respawn role env file partnerPID child hs ha hc]
    refine ⟨rfl, ?_, rfl, ?_, ?_, ?_⟩
    · simp [List.filter_cons, List.filter_append, isProcessAlive_no_start, Event.isStart]
    · intro pids hload ht hlo hhi ho hw
      refine ⟨_, read_addPIDToFile env.pidWrite file pids child hlo hhi ho hw hload ht, ?_, ?_⟩
      · split
        · assumption
        · simp
      · intro q hq
        split
        · exact hq
        · exact List.mem_append_left _ hq
    · intro e he
      exact addPIDToFile_of_error env.pidWrite file e child he
    · intro ho
      exact addPIDToFile_of_open_failure env.pidWrite file child ho
  · intro ha
    rw [pollIteration_alive role env file partnerPID hs ha]
    refine ⟨rfl, rfl, ?_⟩
    simp [List.filter_cons, List.filter_append, isProcessAlive_no_start, Event.isStart]

/-- C5, witness: the monitor on the Windows host with the dead partner `55` spawns a
worker, child `77`, stores it, and the registry `"10\n"` lists `10, 77` afterwards; the
worker on the Unix host with partner `10` spawns nothing and keeps it. -/
theorem respawn_iteration_witness :
    ((pollIteration .monitor windowsHost (.present "10\n".toList) 55).status = .running 77 ∧
        (pollIteration .monitor windowsHost (.present "10\n".toList) 55).trace.filter
            Event.isStart = [.start .worker "10".toList] ∧
        ∃ after,
          readPIDsFromFile (pollIteration .monitor windowsHost (.present "10\n".toList) 55).pidFile =
            .ok after ∧ 77 ∈ after ∧ ∀ q ∈ [10], q ∈ after) ∧
      (pollIteration .worker unixHost (.present "10\n".toList) 10).status = .running 10 ∧
      (pollIteration .worker unixHost (.present "10\n".toList) 10).trace.filter
          Event.isStart = [] :=
  ⟨⟨((respawn_iteration .monitor windowsHost (.present "10\n".toList) 55 (by decide)).1 77
        (by decide) (by decide)).1,
      ((respawn_iteration .monitor windowsHost (.present "10\n".toList) 55 (by decide)).1 77
        (by decide) (by decide)).2.1,
      ((respawn_iteration .monitor windowsHost (.present "10\n".toList) 55 (by decide)).1 77
        (by decide) (by decide)).2.2.2.1 [10] (by decide) (Or.inr (by decide)) (by decide)
        (by decide) (by decide) (by decide)⟩,
    ((respawn_iteration .worker unixHost (.present "10\n".toList) 10 (by decide)).2
      (by decide)).1,
    ((respawn_iteration .worker unixHost (.present "10\n".toList) 10 (by decide)).2
      (by decide)).2.2⟩

/-- C5, counterexamples: the monitor whose partner `55` is dead spawns child `77` and
stores it, but the child is not registered: the registry `"x\n"` does not load and stays
`"x\n"`; the registry `"10\n"` that cannot be opened stays `"10\n"`; and the registry
`"42"`, with no newline, becomes `"4277\n"`, which lists `4277`. -/
theorem respawn_without_registration :
    pollIteration .monitor windowsHost (.present "x\n".toList) 55 =
        ⟨.running 77, .present "x\n".toList,
          [.stat, .findProcess 55, .print .workerNotAlive, .start .worker "10".toList,
            .print .monitoring, .sleep]⟩ ∧
      readPIDsFromFile (.present "x\n".toList) = .error (.parse .syntaxErr) ∧
      pollIteration .monitor windowsHostNoOpen (.present "10\n".toList) 55 =
        ⟨.running 77, .present "10\n".toList,
          [.stat, .findProcess 55, .print .workerNotAlive, .start .worker "10".toList,
            .print .monitoring, .sleep]⟩ ∧
      readPIDsFromFile (.present "10\n".toList) = .ok [10] ∧
      (pollIteration .worker windowsHost (.present "42".toList) 55).status = .running 77 ∧
      readPIDsFromFile (pollIteration .worker windowsHost (.present "42".toList) 55).pidFile =
        .ok [4277] := by
  decide

/-- C6, as amended: for both roles, every iteration starts with the sentinel check,
`os.Stat` on the sentinel path, and the check is positive exactly when `os.Stat` does
not fail with a not-exist error: when the file is found, and also when `os.Stat` fails
for another reason. On a positive check the iteration is `os.Exit(0)` right after it,
with no process lookup, no signal, no spawn and the registry untouched, and so is the
loop; and an iteration, or a loop of any length, ends with an exit status only with
status `0` and only in an iteration whose `os.Stat` did not report not-exist. -/
theorem sentinel_check_first (role : Role) (env : Env) (envs : List Env) (file : PidFile)
    (partnerPID : Int) :
    (pollIteration role env file partnerPID).trace.head? = some .stat ∧
      (isSignalFileExist env = true ↔ env.stat = .found ∨ env.stat = .otherError) ∧
      (env.stat ≠ .notExist →
        pollIteration role env file partnerPID =
            ⟨.exited 0, file, [.stat, .print .signalFileExist]⟩ ∧
          superviseLoop role (env :: envs) file partnerPID =
            ⟨.exited 0, file, [.stat, .print .signalFileExist]⟩) ∧
      (∀ code, (pollIteration role env file partnerPID).status = .exited code →
        code = 0 ∧ env.stat ≠ .notExist) ∧
      (∀ code, (superviseLoop role envs file partnerPID).status = .exited code →
        code = 0 ∧ ∃ e ∈ envs, e.stat ≠ .notExist) := by
  refine ⟨?_, ?_, ?_, ?_, ?_⟩
  · unfold pollIteration
    split
    · rfl
    · split
      · split <;> rfl
      · rfl
  · unfold isSignalFileExist
    cases env.stat <;> simp
  · intro h
    have hp := pollIteration_sentinel role env file partnerPID ((isSignalFileExist_iff env).2 h)
    refine ⟨hp, ?_⟩
    simp only [superviseLoop, hp]
  · intro code h
    obtain ⟨h1, h2⟩ := pollIteration_exit role env file partnerPID code h
    exact ⟨h1, (isSignalFileExist_iff env).1 h2⟩
  · intro code h
    obtain ⟨h1, e, he, h2⟩ := superviseLoop_exit role envs file partnerPID code h
    exact ⟨h1, e, he, (isSignalFileExist_iff e).1 h2⟩

/-- C6, witness: once the sentinel exists, the monitor whose partner `55` is dead exits
with status `0` without looking the partner up. -/
theorem sentinel_check_first_witness :
    pollIteration .monitor unixHostStopped (.present "10\n".toList) 55 =
        ⟨.exited 0, .present "10\n".toList, [.stat, .print .signalFileExist]⟩ ∧
      superviseLoop .monitor [unixHostStopped, unixHost] (.present "10\n".toList) 55 =
        ⟨.exited 0, .present "10\n".toList, [.stat, .print .signalFileExist]⟩ :=
  (sentinel_check_first .monitor unixHostStopped [unixHost] (.present "10\n".toList) 55).2.2.1
    (by decide)

/-- C6, counterexample: `os.Stat` on the sentinel path fails with an error other than
not-exist, so no sentinel was found, and both roles exit with status `0` all the same;
with a not-exist answer the same iteration goes on. -/
theorem exit_without_sentinel :
    unixHostStatError.stat ≠ .found ∧
      isSignalFileExist unixHostStatError = true ∧
      pollIteration .monitor unixHostStatError (.present "10\n".toList) 10 =
        ⟨.exited 0, .present "10\n".toList, [.stat, .print .signalFileExist]⟩ ∧
      (superviseLoop .worker [unixHost, unixHostStatError] (.present "10\n".toList) 10).status =
        .exited 0 ∧
      (pollIteration .monitor unixHost (.present "10\n".toList) 10).status = .running 10 := by
  decide

/-- C8, the code at the failing input: on the Windows host whose executable cannot be
started, the iteration that finds partner `55` dead ends in a panic, for both roles, and
a loop of two iterations stops there, after one spawn attempt; the initial spawn of a
monitor started without a partner ends the same way. -/
theorem spawn_failure_panics :
    isSignalFileExist windowsHostNoExec = false ∧
      (isProcessAlive windowsHostNoExec 55).1 = false ∧
      pollIteration .monitor windowsHostNoExec (.present "10\n".toList) 55 =
        ⟨.panicked, .present "10\n".toList,
          [.stat, .findProcess 55, .print .workerNotAlive, .start .worker "10".toList]⟩ ∧
      (pollIteration .worker windowsHostNoExec (.present "10\n".toList) 55).status =
        .panicked ∧
      superviseLoop .monitor [windowsHostNoExec, windowsHostNoExec] (.present "10\n".toList) 55 =
        ⟨.panicked, .present "10\n".toList,
          [.stat, .findProcess 55, .print .workerNotAlive, .start .worker "10".toList]⟩ ∧
      (monitor windowsHostNoExec [windowsHostNoExec] (.present "10\n".toList) 0).status =
        .panicked := by
  decide

/-! ## The partner argument -/

/-- C9, as amended: for both commands, a supplied argument is accepted exactly when
`strconv.Atoi` parses it, that is when it is a numeric text whose value is a Go `int`.
A text that does not parse prints the diagnostic and exits with status `1` without
starting the supervisor; a value other than zero, negative ones included, starts the loop
with that value as partner identifier, with no spawn before it; the value zero starts the
supervisor as if no argument had been given. -/
theorem startCmd_partner_argument (role : Role) (arg : List Char) (env0 : Env)
    (envs : List Env) (file : PidFile) :
    ((∃ n, Atoi arg = .ok n) ↔ isIntText arg = true) ∧
      (∀ e, Atoi arg = .error e →
        startCmd role [arg] env0 envs file = ⟨.exited 1, file, [.print .invalidPartnerPid]⟩) ∧
      (∀ n, Atoi arg = .ok n → n ≠ 0 →
        startCmd role [arg] env0 envs file = superviseLoop role envs file n) ∧
      (Atoi arg = .ok 0 →
        startCmd role [arg] env0 envs file = startCmd role [] env0 envs file) := by
  refine ⟨?_, ?_, ?_, ?_⟩
  · constructor
    · rintro ⟨n, hn⟩
      exact ((Atoi_ok_iff arg n).1 hn).1
    · intro h
      exact ⟨_, Atoi_of_isIntText arg h⟩
  · intro e he
    simp [startCmd, he]
  · intro n hn h0
    simp [startCmd, hn, supervise, h0]
  · intro h
    simp [startCmd, h]

/-- C9, witness: the texts `"abc"` and `"55"` given to `start-monitor`, and `"0"` given
to `start-worker`. -/
theorem startCmd_partner_argument_witness :
    startMonitorCmd ["abc".toList] unixHost [] .absent =
        ⟨.exited 1, .absent, [.print .invalidPartnerPid]⟩ ∧
      startMonitorCmd ["55".toList] unixHost [] .absent = ⟨.running 55, .absent, []⟩ ∧
      startWorkerCmd ["0".toList] unixHost [] .absent = startWorkerCmd [] unixHost [] .absent :=
  ⟨(startCmd_partner_argument .monitor "abc".toList unixHost [] .absent).2.1 .syntaxErr
      (by decide),
    (startCmd_partner_argument .monitor "55".toList unixHost [] .absent).2.2.1 55 (by decide)
      (by decide),
    (startCmd_partner_argument .worker "0".toList unixHost [] .absent).2.2.2 (by decide)⟩

/-- C9, counterexamples: neither `"0"` nor `"-5"` is a positive integer, yet neither
exits with status `1`: with `"0"` the monitor makes its initial spawn and runs with the
child `77` as partner, with `"-5"` both roles run with the partner identifier `-5`. -/
theorem partner_argument_counterexample :
    Atoi "0".toList = .ok 0 ∧ Atoi "-5".toList = .ok (-5) ∧
      startMonitorCmd ["0".toList] unixHost [] .absent =
        ⟨.running 77, .present "77\n".toList, [.start .worker "10".toList]⟩ ∧
      startMonitorCmd ["-5".toList] unixHost [] .absent = ⟨.running (-5), .absent, []⟩ ∧
      startWorkerCmd ["-5".toList] unixHost [] .absent = ⟨.running (-5), .absent, []⟩ := by
  decide

end TwinProcess
